import Mathlib

/-!
Verification development for the beads-ui client subscription and
push-synchronization layer.

The JavaScript sources are shallowly embedded as executable Lean
definitions.  Pure functions become Lean functions; the mutable state of
`main.js` (unsubscribe handles, the `pending_subscriptions` set, the
per-subscription store registry) becomes explicit state records with
state-passing functions.  JavaScript objects become structures, `Map`s and
`Set`s become association lists and lists of keys, and nullable values
become `Option`.

Modules of the repository that are only *referenced* by the sources under
`src/` (`data/subscription-issue-stores.js`, `data/subscriptions-store.js`,
`data/list-selectors.js`, `data/sort.js`) are modelled from the
specification text; each such definition carries a doc comment starting
with `Modelled from the spec:`.
-/

/- # Data model -/

/-- An issue entity as pushed by the server (`IssueLite` in the sources).
`closed_at` is `none` when the field is missing or not a finite number
(`Number.isFinite` fails on `undefined`, `NaN` and infinities). -/
structure Issue where
  id : String
  title : String
  status : String
  issue_type : String
  labels : List String
  priority : Int
  created_at : Int
  closed_at : Option Int
deriving Repr, DecidableEq

/-- Helper to build an issue with only interesting fields set. -/
def mkIssue (id : String) (status : String) (closed_at : Option Int) : Issue :=
  { id := id, title := "", status := status, issue_type := "", labels := [],
    priority := 0, created_at := 0, closed_at := closed_at }

/-- A subscription query specification (`{ type, params? }` in the
sources).  Only the two shapes that actually occur at the call sites are
needed: a bare `{ type }` and an issue-detail spec `{ type, params: { id } }`. -/
inductive SubSpec where
  | plain (stype : String)
  | detail (stype : String) (id : String)
deriving Repr, DecidableEq

/-- Canonical serialization of a spec, mirroring `JSON.stringify(spec)`
with stable key order as used for the change-detection fingerprint. -/
def fingerprintOf : SubSpec → String
  | SubSpec.plain t => "\x7b\"type\":\"" ++ t ++ "\"\x7d"
  | SubSpec.detail t i =>
      "\x7b\"type\":\"" ++ t ++ "\",\"params\":\x7b\"id\":\"" ++ i ++ "\"\x7d\x7d"

/-- The view name union `'issues'|'epics'|'board'` from the JSDoc types. -/
inductive ViewName where
  | issues
  | epics
  | board
deriving Repr, DecidableEq

/-- UI filter state (`Filters` typedef in `state.js`).  `ftype` embeds the
`type` field (a Lean keyword). -/
structure Filters where
  status : String
  search : String
  ftype : String
  client : List String
  work : List String
deriving Repr, DecidableEq

/- # computeIssuesSpec (src/app/main.js, lines 681-694) -/

/-- `computeIssuesSpec(filters)` from `main.js`: maps the status filter to
the Issues-tab subscription spec.  `String(filters?.status || 'all')`
turns an empty status string into `'all'`; both fall into the final
`all-issues` branch. -/
def computeIssuesSpec (filters : Filters) : SubSpec :=
  let st := if filters.status = "" then "all" else filters.status
  if st = "ready" then SubSpec.plain "ready-issues"
  else if st = "in_progress" then SubSpec.plain "in-progress-issues"
  else if st = "closed" then SubSpec.plain "closed-issues"
  else SubSpec.plain "all-issues"

/- # Entity mirror store and registry -/

/-- Modelled from the spec: the per-key Entity Mirror Store of
`data/subscription-issue-stores.js`, which is not under `src/`.  Spec §4.3:
state is an ordered membership of ids plus an id-to-record entity mapping. -/
structure MirrorStore where
  spec : SubSpec
  membership : List String
  entities : List (String × Issue)
deriving Repr, DecidableEq

/-- First-match association lookup (the JS object/`Map` read). -/
def lookupEntity (m : List (String × Issue)) (k : String) : Option Issue :=
  (m.find? (fun p => p.1 = k)).map (fun p => p.2)

/-- Modelled from the spec: `snapshot` replaces membership and entities
wholesale (spec §4.3). -/
def applySnapshot (st : MirrorStore) (items : List Issue) : MirrorStore :=
  { st with membership := items.map Issue.id,
            entities := items.map (fun it => (it.id, it)) }

/-- Modelled from the spec: one `upsert` item — update in place when the id
is already a member, otherwise append at the end (spec §4.3). -/
def applyUpsertOne (st : MirrorStore) (it : Issue) : MirrorStore :=
  if decide (it.id ∈ st.membership) then
    { st with entities :=
        st.entities.map (fun p => if p.1 = it.id then (it.id, it) else p) }
  else
    { st with membership := st.membership ++ [it.id],
              entities := st.entities ++ [(it.id, it)] }

/-- Modelled from the spec: one `delete` id — remove from membership and
drop the entity record (spec §4.3). -/
def applyDeleteOne (st : MirrorStore) (k : String) : MirrorStore :=
  { st with membership := st.membership.filter (fun x => x ≠ k),
            entities := st.entities.filter (fun p => p.1 ≠ k) }

/-- A push envelope payload as received by the `client.on` handlers in
`main.js`.  `id` is `none` when the field is missing or not a string;
`ptype` is the envelope's `type` field. -/
structure Payload where
  id : Option String
  ptype : Option String
  items : List Issue
  ids : List String
deriving Repr, DecidableEq

/-- Modelled from the spec: `applyPush(envelope)` dispatch on the envelope
kind (spec §4.3); unrecognized kinds leave the store untouched. -/
def applyPush (st : MirrorStore) (p : Payload) : MirrorStore :=
  match p.ptype with
  | some "snapshot" => applySnapshot st p.items
  | some "upsert" => p.items.foldl applyUpsertOne st
  | some "delete" => p.ids.foldl applyDeleteOne st
  | _ => st

/-- Ordered entity view of a store: membership order, records resolved
through the entity mapping (spec §4.3 `snapshotFor`). -/
def MirrorStore.snapshotList (st : MirrorStore) : List Issue :=
  st.membership.filterMap (lookupEntity st.entities)

/-- Modelled from the spec: the Mirror Registry — the mapping from
subscription key to mirror store owned by
`createSubscriptionIssueStores()`. -/
abbrev Registry : Type := List (String × MirrorStore)

/-- `getStore(key)`: the store registered for a key, if any. -/
def getStore (reg : Registry) (key : String) : Option MirrorStore :=
  (List.find? (fun p => p.1 = key) reg).map (fun p => p.2)

/-- Modelled from the spec: `register(key, spec)` creates a store if
absent and is a no-op when one already exists (spec §4.3). -/
def registerStore (reg : Registry) (key : String) (spec : SubSpec) : Registry :=
  match getStore reg key with
  | some _ => reg
  | none => reg ++ [(key, { spec := spec, membership := [], entities := [] })]

/-- Modelled from the spec: `unregister(key)` destroys the store; no-op on
an unknown key (spec §4.3). -/
def unregisterStore (reg : Registry) (key : String) : Registry :=
  List.filter (fun p => p.1 ≠ key) reg

/-- Replace the store stored under `key` (the mutation of one mirror). -/
def setStore (reg : Registry) (key : String) (st : MirrorStore) : Registry :=
  List.map (fun p => if p.1 = key then (key, st) else p) reg

/-- `snapshotFor(key)`: ordered entities of the mirror for `key`, empty
when no store is registered. -/
def snapshotFor (reg : Registry) (key : String) : List Issue :=
  match getStore reg key with
  | some st => st.snapshotList
  | none => []

/- # Envelope routing (src/app/main.js, lines 113-148) -/

/-- One `client.on(event, ...)` handler from `main.js`: extract the `id`
(empty string when missing or not a string — and an empty id is falsy, so
no store is looked up), find the owning store, and apply the push only
when the payload's `type` matches the event the handler is wired to.
The result pairs the updated registry with the number of store mutations
performed (each mutation broadcasts one change notification downstream).
The JS wraps `applyPush` in `try/catch`; the Lean model is total, so no
exception path exists. -/
def routeEvent (reg : Registry) (event : String) (p : Payload) : Registry × Nat :=
  let key := match p.id with
    | some s => s
    | none => ""
  if key = "" then (reg, 0)
  else
    match getStore reg key with
    | none => (reg, 0)
    | some st =>
        if p.ptype = some event then (setStore reg key (applyPush st p), 1)
        else (reg, 0)

/- # Subscription call sites (src/app/main.js, lines 649-919; src/app/views/list.js) -/

/-- One observable step taken by a subscription call site:
`register`/`unregister` address the mirror registry, `subscribe` is a
`subscriptions.subscribeList(key, spec)` call and `unsubscribe` an
invocation of a previously returned release handle for `key`. -/
inductive SubAction where
  | register (key : String) (spec : SubSpec)
  | subscribe (key : String) (spec : SubSpec)
  | unsubscribe (key : String)
  | unregister (key : String)
deriving Repr, DecidableEq

/-- The mutable bindings of `bootstrap` that drive tab-level subscription
management: the six unsubscribe handles (modelled as "handle present"
booleans), `last_issues_spec_key` and the `pending_subscriptions` set
(modelled as a duplicate-free list of composite keys). -/
structure TabSubState where
  unsub_issues_tab : Bool
  unsub_epics_tab : Bool
  unsub_board_ready : Bool
  unsub_board_in_progress : Bool
  unsub_board_closed : Bool
  unsub_board_blocked : Bool
  last_issues_spec_key : Option String
  pending_subscriptions : List String
deriving Repr, DecidableEq

/-- The Issues-tab block of `ensureTabSubscriptions` (`main.js` 703-744):
register the store first, then subscribe only when not yet subscribed or
the spec fingerprint changed, and not already in flight.  Leaving the tab
releases the subscription and unregisters the store. -/
def ensureIssuesTab (st : TabSubState) (view : ViewName) (filters : Filters) :
    List SubAction × TabSubState :=
  if view = ViewName.issues then
    let spec := computeIssuesSpec filters
    let key := fingerprintOf spec
    let issues_sub_key := "tab:issues:" ++ key
    let reg := [SubAction.register "tab:issues" spec]
    if (!st.unsub_issues_tab || decide (st.last_issues_spec_key ≠ some key)) &&
        !(decide (issues_sub_key ∈ st.pending_subscriptions)) then
      (reg ++ [SubAction.subscribe "tab:issues" spec],
       { st with pending_subscriptions := issues_sub_key :: st.pending_subscriptions })
    else (reg, st)
  else if st.unsub_issues_tab then
    ([SubAction.unsubscribe "tab:issues", SubAction.unregister "tab:issues"],
     { st with unsub_issues_tab := false, last_issues_spec_key := none })
  else ([], st)

/-- The Epics-tab block of `ensureTabSubscriptions` (`main.js` 747-778). -/
def ensureEpicsTab (st : TabSubState) (view : ViewName) :
    List SubAction × TabSubState :=
  if view = ViewName.epics then
    let reg := [SubAction.register "tab:epics" (SubSpec.plain "epics")]
    if !st.unsub_epics_tab && !(decide ("tab:epics" ∈ st.pending_subscriptions)) then
      (reg ++ [SubAction.subscribe "tab:epics" (SubSpec.plain "epics")],
       { st with pending_subscriptions := "tab:epics" :: st.pending_subscriptions })
    else (reg, st)
  else if st.unsub_epics_tab then
    ([SubAction.unsubscribe "tab:epics", SubAction.unregister "tab:epics"],
     { st with unsub_epics_tab := false })
  else ([], st)

/-- One board-column block of `ensureTabSubscriptions` (`main.js`
781-879): when not subscribed and not in flight, register the column's
store, mark the key pending and subscribe. -/
def ensureBoardColumn (st : TabSubState) (has_unsub : Bool) (key : String)
    (spec : SubSpec) : List SubAction × TabSubState :=
  if !has_unsub && !(decide (key ∈ st.pending_subscriptions)) then
    ([SubAction.register key spec, SubAction.subscribe key spec],
     { st with pending_subscriptions := key :: st.pending_subscriptions })
  else ([], st)

/-- The teardown of one board column when leaving the board view
(`main.js` 881-917). -/
def teardownBoardColumn (has_unsub : Bool) (key : String) : List SubAction :=
  if has_unsub then [SubAction.unsubscribe key, SubAction.unregister key] else []

/-- The Board-tab block of `ensureTabSubscriptions`. -/
def ensureBoardTab (st : TabSubState) (view : ViewName) :
    List SubAction × TabSubState :=
  if view = ViewName.board then
    let r1 := ensureBoardColumn st st.unsub_board_ready
      "tab:board:ready" (SubSpec.plain "ready-issues")
    let r2 := ensureBoardColumn r1.2 r1.2.unsub_board_in_progress
      "tab:board:in-progress" (SubSpec.plain "in-progress-issues")
    let r3 := ensureBoardColumn r2.2 r2.2.unsub_board_closed
      "tab:board:closed" (SubSpec.plain "closed-issues")
    let r4 := ensureBoardColumn r3.2 r3.2.unsub_board_blocked
      "tab:board:blocked" (SubSpec.plain "blocked-issues")
    (r1.1 ++ r2.1 ++ r3.1 ++ r4.1, r4.2)
  else
    (teardownBoardColumn st.unsub_board_ready "tab:board:ready" ++
     teardownBoardColumn st.unsub_board_in_progress "tab:board:in-progress" ++
     teardownBoardColumn st.unsub_board_closed "tab:board:closed" ++
     teardownBoardColumn st.unsub_board_blocked "tab:board:blocked",
     { st with unsub_board_ready := false, unsub_board_in_progress := false,
               unsub_board_closed := false, unsub_board_blocked := false })

/-- `ensureTabSubscriptions(s)` from `main.js`: the synchronous action
trace of one invocation together with the updated call-site state.  The
asynchronous settlement of each issued subscribe is modelled separately by
`settleTab`. -/
def ensureTabSubscriptions (st : TabSubState) (view : ViewName)
    (filters : Filters) : List SubAction × TabSubState :=
  let r1 := ensureIssuesTab st view filters
  let r2 := ensureEpicsTab r1.2 view
  let r3 := ensureBoardTab r2.2 view
  (r1.1 ++ r2.1 ++ r3.1, r3.2)

/-- Identifier for one of the tab-level subscribe call sites, carrying the
spec fingerprint for the Issues tab (whose pending key embeds it). -/
inductive TabKey where
  | issues (fingerprint : String)
  | epics
  | boardReady
  | boardInProgress
  | boardClosed
  | boardBlocked
deriving Repr, DecidableEq

/-- The composite key stored in `pending_subscriptions` for a call site. -/
def TabKey.pendingKey : TabKey → String
  | TabKey.issues fp => "tab:issues:" ++ fp
  | TabKey.epics => "tab:epics"
  | TabKey.boardReady => "tab:board:ready"
  | TabKey.boardInProgress => "tab:board:in-progress"
  | TabKey.boardClosed => "tab:board:closed"
  | TabKey.boardBlocked => "tab:board:blocked"

/-- Settlement of one in-flight `subscribeList` call: the `.then` handler
stores the release handle (and, for Issues, `last_issues_spec_key`) on
success, and the `.finally` handler removes the composite key from
`pending_subscriptions` on success and failure alike (`main.js`
720-733, 756-768, 794-878). -/
def settleTab (st : TabSubState) (k : TabKey) (success : Bool) : TabSubState :=
  let st1 :=
    if success then
      match k with
      | TabKey.issues fp =>
          { st with unsub_issues_tab := true, last_issues_spec_key := some fp }
      | TabKey.epics => { st with unsub_epics_tab := true }
      | TabKey.boardReady => { st with unsub_board_ready := true }
      | TabKey.boardInProgress => { st with unsub_board_in_progress := true }
      | TabKey.boardClosed => { st with unsub_board_closed := true }
      | TabKey.boardBlocked => { st with unsub_board_blocked := true }
    else st
  { st1 with pending_subscriptions :=
      st1.pending_subscriptions.filter (fun x => x ≠ k.pendingKey) }

/-- The detail-dialog call site (`main.js` 556-569 and 583-605): register
the `detail:<id>` store first, then subscribe. -/
def detailSubscribeActions (id : String) : List SubAction :=
  [SubAction.register ("detail:" ++ id) (SubSpec.detail "issue-detail" id),
   SubAction.subscribe ("detail:" ++ id) (SubSpec.detail "issue-detail" id)]

/-- The epic-expansion call site, `toggle(epic_id)` in
`src/app/views/list.js` (lines 1268-1295): register the `detail:<epicId>`
store first, then subscribe. -/
def epicToggleActions (epic_id : String) : List SubAction :=
  [SubAction.register ("detail:" ++ epic_id) (SubSpec.detail "issue-detail" epic_id),
   SubAction.subscribe ("detail:" ++ epic_id) (SubSpec.detail "issue-detail" epic_id)]

/-- Checker for the registration-before-subscribe discipline: walking the
action trace with the set of registered keys, every `subscribe` must name
a key registered earlier in the trace (and not unregistered since). -/
def regBeforeSubOk : List SubAction → List String → Bool
  | [], _ => true
  | SubAction.register k _ :: rest, regd => regBeforeSubOk rest (k :: regd)
  | SubAction.subscribe k _ :: rest, regd => decide (k ∈ regd) && regBeforeSubOk rest regd
  | SubAction.unsubscribe _ :: rest, regd => regBeforeSubOk rest regd
  | SubAction.unregister k :: rest, regd =>
      regBeforeSubOk rest (regd.filter (fun x => x ≠ k))

/- # Subscription manager transport (spec §4.2, §5) -/

/-- A transport round-trip issued by the Subscription Manager. -/
inductive TransportCall where
  | subscribe (key : String) (spec : SubSpec)
  | unsubscribe (key : String)
deriving Repr, DecidableEq

/-- Subscription-record lifecycle states (spec §3). -/
inductive SubStatus where
  | pending
  | active
  | closed
deriving Repr, DecidableEq

/-- A subscription record held by the Manager for a key (spec §3). -/
structure SubRecord where
  spec : SubSpec
  status : SubStatus
deriving Repr, DecidableEq

/-- Modelled from the spec: the transport round-trips issued by one
`subscribeList(key, spec)` call of `data/subscriptions-store.js`, which is
not under `src/`.  Spec §4.2: an `active` record with an equal fingerprint
is an idempotent no-op, a `pending` record suppresses the call entirely;
spec §5: resubscription on spec change fully replaces the prior
subscription — unsubscribe old, then subscribe new, in that order. -/
def subscribeListTransport (existing : Option SubRecord) (key : String)
    (spec : SubSpec) : List TransportCall :=
  match existing with
  | some r =>
      match r.status with
      | SubStatus.active =>
          if fingerprintOf r.spec = fingerprintOf spec then []
          else [TransportCall.unsubscribe key, TransportCall.subscribe key spec]
      | SubStatus.pending => []
      | SubStatus.closed => [TransportCall.subscribe key spec]
  | none => [TransportCall.subscribe key spec]

/-- The Issues-tab branch of `ensureTabSubscriptions` composed with the
Manager: the transport round-trips caused by one invocation while the
Issues tab is active, given the Manager's current record for
`tab:issues`. -/
def ensureIssuesTransport (st : TabSubState) (mgr : Option SubRecord)
    (filters : Filters) : List TransportCall :=
  let spec := computeIssuesSpec filters
  let key := fingerprintOf spec
  let issues_sub_key := "tab:issues:" ++ key
  if (!st.unsub_issues_tab || decide (st.last_issues_spec_key ≠ some key)) &&
      !(decide (issues_sub_key ∈ st.pending_subscriptions)) then
    subscribeListTransport mgr "tab:issues" spec
  else []

/- # Selectors (spec §4.4) -/

/-- Modelled from the spec: `selectIssuesFor(key)` of
`data/list-selectors.js`, which is not under `src/` — "returns the
mirror's entities verbatim" (spec §4.4). -/
def selectIssuesFor (reg : Registry) (key : String) : List Issue :=
  snapshotFor reg key

/-- Modelled from the spec: `selectBoardColumn(key, columnKind)` of
`data/list-selectors.js` — "returns a mirror's entities, with
board-specific exclusion rules applied by the caller" (spec §4.4); the
column kind does not alter the returned entities. -/
def selectBoardColumn (reg : Registry) (key : String) : List Issue :=
  snapshotFor reg key

/- # Board view (src/app/views/board.js) -/

/-- `matchesLabelFilters(issue)` from `board.js` (lines 141-156) and
`list.js` (lines 308-323): AND-logic over the selected client and work
label filters. -/
def matchesLabelFilters (client_filters work_filters : List String)
    (it : Issue) : Bool :=
  client_filters.all (fun c => decide (("client:" ++ c) ∈ it.labels)) &&
  work_filters.all (fun w => decide (("work:" ++ w) ∈ it.labels))

/-- The four column lists computed by the board view; `closed_raw` is the
pre-closed-filter Closed column (`list_closed_raw`). -/
structure BoardLists where
  ready : List Issue
  blocked : List Issue
  in_progress : List Issue
  closed_raw : List Issue
deriving Repr, DecidableEq

/-- The selector-composition part of `refreshFromStores` from `board.js`
(lines 805-848): read the four mirrors, exclude from Ready every id also
present in the In Progress mirror, and apply the label filters when any
are selected. -/
def refreshFromStores (reg : Registry) (client_filters work_filters : List String) :
    BoardLists :=
  let in_progress := selectBoardColumn reg "tab:board:in-progress"
  let blocked := selectBoardColumn reg "tab:board:blocked"
  let ready_raw := selectBoardColumn reg "tab:board:ready"
  let closed := selectBoardColumn reg "tab:board:closed"
  let in_prog_ids := in_progress.map Issue.id
  let ready := ready_raw.filter (fun i => !(decide (i.id ∈ in_prog_ids)))
  let has_label_filters := !client_filters.isEmpty || !work_filters.isEmpty
  { ready := if has_label_filters
      then ready.filter (matchesLabelFilters client_filters work_filters) else ready,
    blocked := if has_label_filters
      then blocked.filter (matchesLabelFilters client_filters work_filters) else blocked,
    in_progress := if has_label_filters
      then in_progress.filter (matchesLabelFilters client_filters work_filters)
      else in_progress,
    closed_raw := if has_label_filters
      then closed.filter (matchesLabelFilters client_filters work_filters) else closed }

/-- Modelled from the spec: `cmpClosedDesc` of `data/sort.js`, which is
not under `src/` — the Closed column/list sorts "closed-descending-by-
close-time" (spec §4.4, board.js header comment).  Items reaching the sort
all carry a finite `closed_at`; a missing one is treated as 0. -/
def cmpClosedDescLe (a b : Issue) : Bool :=
  decide (b.closed_at.getD 0 ≤ a.closed_at.getD 0)

/-- `applyClosedFilter` from `board.js` (lines 744-777): compute the
cutoff from the filter mode (`'today'` → start of the current local day,
`'3'`/`'7'` → now minus that many days in milliseconds), keep only items
whose `closed_at` is a finite number at or after the cutoff, and sort by
`closed_at` descending.  `now_ts` is `Date.now()` and `day_start_ts` the
epoch milliseconds of the current local day's start. -/
def applyClosedFilter (list_closed_raw : List Issue) (mode : String)
    (now_ts day_start_ts : Int) : List Issue :=
  let since_ts : Int :=
    if mode = "today" then day_start_ts
    else if mode = "3" then now_ts - 3 * 24 * 60 * 60 * 1000
    else if mode = "7" then now_ts - 7 * 24 * 60 * 60 * 1000
    else 0
  let items := list_closed_raw.filter (fun it =>
    match it.closed_at with
    | some s => decide (since_ts ≤ s)
    | none => false)
  items.mergeSort cmpClosedDescLe

/- # List view filtering (src/app/views/list.js, lines 328-355) -/

/-- JavaScript `String.prototype.includes`: substring containment. -/
def strIncludes (hay needle : String) : Bool :=
  decide (needle.toList.IsInfix hay.toList)

/-- The search predicate of the list template: the lowercased needle must
occur in the lowercased id or title. -/
def searchMatches (needle : String) (it : Issue) : Bool :=
  strIncludes it.id.toLower needle || strIncludes it.title.toLower needle

/-- The filter pipeline of `template()` in `list.js` (lines 329-351):
status filter (skipped when empty or when `'ready'` is selected), then
free-text search, then type filter, then label filters — each applied
client-side over the cached mirror entities. -/
def templateFiltered (issues_cache : List Issue) (status_filters : List String)
    (search_text : String)
    (type_filters client_filters work_filters : List String) : List Issue :=
  let f1 := if !status_filters.isEmpty && !(decide ("ready" ∈ status_filters))
    then issues_cache.filter (fun it => decide (it.status ∈ status_filters))
    else issues_cache
  let f2 := if search_text ≠ "" then
      f1.filter (searchMatches search_text.toLower)
    else f1
  let f3 := if !type_filters.isEmpty
    then f2.filter (fun it => decide (it.issue_type ∈ type_filters))
    else f2
  let f4 := if !client_filters.isEmpty || !work_filters.isEmpty
    then f3.filter (matchesLabelFilters client_filters work_filters)
    else f3
  f4

/-- The combined per-item predicate equivalent to the staged pipeline:
each stage contributes its test only when its gate is on. -/
def templatePred (status_filters : List String) (search_text : String)
    (type_filters client_filters work_filters : List String) (it : Issue) : Bool :=
  (!(!status_filters.isEmpty && !(decide ("ready" ∈ status_filters))) ||
    decide (it.status ∈ status_filters)) &&
  (!(search_text ≠ "") || searchMatches search_text.toLower it) &&
  (!(!type_filters.isEmpty) || decide (it.issue_type ∈ type_filters)) &&
  (!(!client_filters.isEmpty || !work_filters.isEmpty) ||
    matchesLabelFilters client_filters work_filters it)

/- # State store (src/app/state.js) -/

/-- A workspace descriptor (`WorkspaceInfo` typedef). -/
structure WorkspaceInfo where
  path : String
  database : String
  pid : Option Int
  version : Option String
deriving Repr, DecidableEq

/-- Workspace portion of the app state. -/
structure WorkspaceState where
  current : Option WorkspaceInfo
  available : List WorkspaceInfo
deriving Repr, DecidableEq

/-- Board portion of the app state. -/
structure BoardState where
  closed_filter : String
deriving Repr, DecidableEq

/-- The full `AppState` of `state.js`. -/
structure AppState where
  selected_id : Option String
  view : ViewName
  filters : Filters
  board : BoardState
  workspace : WorkspaceState
deriving Repr, DecidableEq

/-- A partial filters patch; `none` marks an absent key. -/
structure FiltersPatch where
  status : Option String
  search : Option String
  ftype : Option String
  client : Option (List String)
  work : Option (List String)
deriving Repr, DecidableEq

/-- A partial board patch. -/
structure BoardPatch where
  closed_filter : Option String
deriving Repr, DecidableEq

/-- A partial workspace patch; the outer `Option` marks an absent key, so
`some none` models an explicit `current: null`. -/
structure WorkspacePatch where
  current : Option (Option WorkspaceInfo)
  available : Option (List WorkspaceInfo)
deriving Repr, DecidableEq

/-- A `setState` patch; every key may be absent. -/
structure StatePatch where
  selected_id : Option (Option String)
  view : Option ViewName
  filters : Option FiltersPatch
  board : Option BoardPatch
  workspace : Option WorkspacePatch
deriving Repr, DecidableEq

/-- The empty filters patch (`patch.filters || \x7b\x7d`). -/
def emptyFiltersPatch : FiltersPatch :=
  { status := none, search := none, ftype := none, client := none, work := none }

/-- The empty board patch. -/
def emptyBoardPatch : BoardPatch := { closed_filter := none }

/-- The `next` object built by `setState` (`state.js` lines 104-119):
top-level spread, per-field merge of `filters` and `board`, and
`undefined`-checked replacement of `workspace.current`/`available`. -/
def mergeState (s : AppState) (p : StatePatch) : AppState :=
  let fp := p.filters.getD emptyFiltersPatch
  let bp := p.board.getD emptyBoardPatch
  { selected_id := p.selected_id.getD s.selected_id,
    view := p.view.getD s.view,
    filters :=
      { status := fp.status.getD s.filters.status,
        search := fp.search.getD s.filters.search,
        ftype := fp.ftype.getD s.filters.ftype,
        client := fp.client.getD s.filters.client,
        work := fp.work.getD s.filters.work },
    board := { closed_filter := bp.closed_filter.getD s.board.closed_filter },
    workspace :=
      { current := match p.workspace with
          | some wp => wp.current.getD s.workspace.current
          | none => s.workspace.current,
        available := match p.workspace with
          | some wp => wp.available.getD s.workspace.available
          | none => s.workspace.available } }

/-- The shallow-compare guard of `setState` (`state.js` lines 120-140) as
a proposition: nothing the guard inspects changed.  The JS compares the
`client`/`work` lists via `JSON.stringify`, which is injective on lists of
strings, so list equality is the faithful translation. -/
def noChangeGuard (s n : AppState) : Prop :=
  n.selected_id = s.selected_id ∧ n.view = s.view ∧
  n.filters.status = s.filters.status ∧
  n.filters.search = s.filters.search ∧
  n.filters.ftype = s.filters.ftype ∧
  n.filters.client = s.filters.client ∧
  n.filters.work = s.filters.work ∧
  n.board.closed_filter = s.board.closed_filter ∧
  n.workspace.current.map WorkspaceInfo.path =
    s.workspace.current.map WorkspaceInfo.path ∧
  n.workspace.available.length = s.workspace.available.length

instance (s n : AppState) : Decidable (noChangeGuard s n) := by
  unfold noChangeGuard
  infer_instance

/-- `setState(patch)` from `state.js` together with `emit()`: build the
merged `next` state, return the old state untouched with no emissions when
the guard sees no change, otherwise install `next` and invoke every
subscriber exactly once in order.  A subscriber is a function that may
throw (`Except.error`); `emit` wraps each call in `try/catch`, so every
subscriber runs regardless of earlier exceptions and the results are
collected in order, one per subscriber. -/
def setState (s : AppState) (subs : List (AppState → Except String Unit))
    (p : StatePatch) : AppState × List (Except String Unit) :=
  let next := mergeState s p
  let workspace_changed :=
    decide (next.workspace.current.map WorkspaceInfo.path ≠
      s.workspace.current.map WorkspaceInfo.path) ||
    decide (next.workspace.available.length ≠ s.workspace.available.length)
  let client_changed := decide (next.filters.client ≠ s.filters.client)
  let work_changed := decide (next.filters.work ≠ s.filters.work)
  if decide (next.selected_id = s.selected_id) &&
      decide (next.view = s.view) &&
      decide (next.filters.status = s.filters.status) &&
      decide (next.filters.search = s.filters.search) &&
      decide (next.filters.ftype = s.filters.ftype) &&
      !client_changed && !work_changed &&
      decide (next.board.closed_filter = s.board.closed_filter) &&
      !workspace_changed then (s, [])
  else (next, subs.map (fun f => f next))

/- # Workspace discovery (src/server/registry-watcher.js) -/

/-- A workspace descriptor returned by `getAvailableWorkspaces`. -/
structure WsDescriptor where
  path : String
  database : String
  pid : Option Int
  version : String
deriving Repr, DecidableEq

/-- An entry of the on-disk registry file (`RegistryEntry` typedef). -/
structure FileRegistryEntry where
  workspace_path : String
  database_path : String
  pid : Int
  version : String
deriving Repr, DecidableEq

/-- The descriptor built from one file-registry entry
(`registry-watcher.js` lines 154-159). -/
def fileDescriptor (e : FileRegistryEntry) : WsDescriptor :=
  { path := e.workspace_path, database := e.database_path,
    pid := some e.pid, version := e.version }

/-- `getAvailableWorkspaces()` from `registry-watcher.js` (lines 146-176),
with `path.resolve` abstracted as a normalization function and the three
sources (registry file, in-memory registrations, directory scan) passed as
inputs: file entries first, then in-memory workspaces whose resolved path
was not yet seen, then discovered workspaces whose resolved path was not
yet seen. -/
def getAvailableWorkspaces (resolve : String → String)
    (entries : List FileRegistryEntry)
    (in_memory discovered : List WsDescriptor) : List WsDescriptor :=
  let fileWorkspaces := entries.map fileDescriptor
  let seen0 := fileWorkspaces.map (fun w => resolve w.path)
  let inMem := in_memory.filter (fun w => !(decide (resolve w.path ∈ seen0)))
  let seen1 := seen0 ++ inMem.map (fun w => resolve w.path)
  let disc := discovered.filter (fun w => !(decide (resolve w.path ∈ seen1)))
  fileWorkspaces ++ inMem ++ disc

/- # Helper lemmas -/

/-- A fresh `register` stores an empty mirror under `key`. -/
theorem getStore_registerStore_fresh (reg : Registry) (key : String)
    (spec : SubSpec) (h : getStore reg key = none) :
    getStore (registerStore reg key spec) key =
      some { spec := spec, membership := [], entities := [] } := by
  unfold registerStore
  rw [h]
  unfold getStore at h ⊢
  have hfind : List.find? (fun p => decide (p.1 = key)) reg = none := by
    cases hf : List.find? (fun p => decide (p.1 = key)) reg with
    | none => rfl
    | some v => rw [hf] at h; simp at h
  rw [List.find?_append, hfind]
  simp [List.find?]

/-- Replacing the store under `key` is visible through `getStore`. -/
theorem getStore_setStore_self (reg : Registry) (key : String)
    (st0 st : MirrorStore) (h : getStore reg key = some st0) :
    getStore (setStore reg key st) key = some st := by
  unfold getStore setStore at *
  induction reg with
  | nil => simp [List.find?] at h
  | cons hd tl ih =>
      by_cases hk : hd.1 = key
      · simp only [List.map_cons, if_pos hk]
        rw [List.find?_cons_of_pos _ (by simp)]
        rfl
      · rw [List.find?_cons_of_neg _ (by simp [hk])] at h
        simp only [List.map_cons, if_neg hk]
        rw [List.find?_cons_of_neg _ (by simp [hk])]
        exact ih h

/-- Resolving each id of a pairwise-distinct item list through the pair
mapping built from that same list returns the list itself. -/
theorem filterMap_lookup_pairs (xs : List Issue)
    (h : (xs.map Issue.id).Nodup) :
    (xs.map Issue.id).filterMap
      (lookupEntity (xs.map fun it => (it.id, it))) = xs := by
  induction xs with
  | nil => rfl
  | cons x xs ih =>
      simp only [List.map_cons, List.nodup_cons] at h
      obtain ⟨hx, hnd⟩ := h
      simp only [List.map_cons, List.filterMap_cons]
      have hfst : lookupEntity ((x.id, x) :: List.map (fun it => (it.id, it)) xs) x.id
          = some x := by
        unfold lookupEntity
        rw [List.find?_cons_of_pos _ (by simp)]
        rfl
      rw [hfst]
      have hrest : List.filterMap
          (lookupEntity ((x.id, x) :: List.map (fun it => (it.id, it)) xs))
          (List.map Issue.id xs) =
          List.filterMap (lookupEntity (List.map (fun it => (it.id, it)) xs))
          (List.map Issue.id xs) := by
        apply List.filterMap_congr
        intro k hk
        have hne : k ≠ x.id := by
          intro he
          exact hx (he ▸ hk)
        unfold lookupEntity
        rw [List.find?_cons_of_neg _
          (by simp only [decide_eq_true_eq]; exact Ne.symm hne)]
      rw [hrest, ih hnd]

/-- Round trip through a snapshot: when the pushed items carry pairwise
distinct ids, the ordered entity view of the snapshotted store is exactly
the pushed item list. -/
theorem snapshotList_applySnapshot (st : MirrorStore) (items : List Issue)
    (h : (items.map Issue.id).Nodup) :
    (applySnapshot st items).snapshotList = items := by
  unfold applySnapshot MirrorStore.snapshotList
  simpa using filterMap_lookup_pairs items h

/- # Claim theorems -/

/-- C4: a push envelope delivered on the `snapshot`, `upsert` or `delete`
event whose id names a key with no registered store is silently dropped:
the registry is unchanged, zero change notifications are broadcast, and
the (total) routing function raises no error. -/
theorem unknown_key_push_dropped (reg : Registry) (event : String)
    (p : Payload) (key : String)
    (_hev : event = "snapshot" ∨ event = "upsert" ∨ event = "delete")
    (hid : p.id = some key) (hstore : getStore reg key = none) :
    routeEvent reg event p = (reg, 0) := by
  unfold routeEvent
  rw [hid]
  by_cases hk : key = ""
  · simp [hk]
  · simp only [if_neg hk, hstore]

/-- A concrete empty mirror store used by witnesses. -/
def emptyEpicsStore : MirrorStore :=
  { spec := SubSpec.plain "epics", membership := [], entities := [] }

/-- A concrete one-entity mirror store used by witnesses. -/
def oneIssueStore : MirrorStore :=
  { spec := SubSpec.plain "all-issues", membership := ["I-1"],
    entities := [("I-1", mkIssue "I-1" "open" none)] }

/-- Witness for C4 at a concrete registry and payload. -/
theorem unknown_key_push_dropped_witness :
    routeEvent [("tab:epics", emptyEpicsStore)] "snapshot"
      { id := some "tab:issues", ptype := some "snapshot",
        items := [mkIssue "I-1" "open" none], ids := [] } =
      ([("tab:epics", emptyEpicsStore)], 0) :=
  unknown_key_push_dropped _ _ _ "tab:issues" (Or.inl rfl) rfl (by rfl)

/-- C5: a malformed push envelope — missing or non-string id, or a `type`
field that differs from the event the handler is wired to — is dropped
without mutating any store: the registry after delivery equals the
registry before, zero notifications are broadcast, and the total routing
function cannot crash.  A mirror is therefore only ever mutated by an
envelope that passes the full validation. -/
theorem malformed_push_dropped (reg : Registry) (event : String) (p : Payload)
    (_hev : event = "snapshot" ∨ event = "upsert" ∨ event = "delete")
    (hbad : p.id = none ∨ p.ptype ≠ some event) :
    routeEvent reg event p = (reg, 0) := by
  unfold routeEvent
  rcases hbad with h | h
  · simp [h]
  · cases hid : p.id with
    | none => simp
    | some key =>
        by_cases hk : key = ""
        · simp [hk]
        · cases hst : getStore reg key <;> simp [hk, hst, h]

/-- Witness for C5: a type-mismatched envelope aimed at a registered key
leaves the store untouched. -/
theorem malformed_push_dropped_witness :
    routeEvent [("tab:issues", oneIssueStore)] "snapshot"
      { id := some "tab:issues", ptype := some "upsert",
        items := [mkIssue "I-1" "closed" (some 3)], ids := [] } =
      ([("tab:issues", oneIssueStore)], 0) :=
  malformed_push_dropped _ _ _ (Or.inl rfl) (Or.inr (by simp))

/-- C6: with no label filters selected, the Ready column computed by
`refreshFromStores` is exactly the Ready mirror's entities whose id is
absent from the In Progress mirror, while the Blocked, In Progress and
(raw) Closed columns are their mirrors' entities without that exclusion. -/
theorem board_ready_cross_mirror_exclusion (reg : Registry) :
    (refreshFromStores reg [] []).ready =
      (snapshotFor reg "tab:board:ready").filter
        (fun i => !(decide (i.id ∈ (snapshotFor reg "tab:board:in-progress").map Issue.id))) ∧
    (refreshFromStores reg [] []).blocked = snapshotFor reg "tab:board:blocked" ∧
    (refreshFromStores reg [] []).in_progress = snapshotFor reg "tab:board:in-progress" ∧
    (refreshFromStores reg [] []).closed_raw = snapshotFor reg "tab:board:closed" ∧
    ∀ i, i ∈ (refreshFromStores reg [] []).ready ↔
      i ∈ snapshotFor reg "tab:board:ready" ∧
        i.id ∉ (snapshotFor reg "tab:board:in-progress").map Issue.id := by
  refine ⟨?_, ?_, ?_, ?_, ?_⟩ <;>
    simp [refreshFromStores, selectBoardColumn, List.mem_filter]

/-- The `seen` set after the in-memory pass covers exactly the resolved
file paths together with all resolved in-memory paths (a dropped
in-memory path is already a file path). -/
theorem mem_seen_after_inmem (resolve : String → String) (fseen : List String)
    (in_memory : List WsDescriptor) (r : String) :
    (r ∈ fseen ++ (in_memory.filter
        (fun w => !(decide (resolve w.path ∈ fseen)))).map (fun w => resolve w.path)) ↔
      (r ∈ fseen ∨ r ∈ in_memory.map (fun w => resolve w.path)) := by
  simp only [List.mem_append, List.mem_map, List.mem_filter]
  constructor
  · rintro (h | ⟨w, ⟨hw, _⟩, hr⟩)
    · exact Or.inl h
    · exact Or.inr ⟨w, hw, hr⟩
  · rintro (h | ⟨w, hw, hr⟩)
    · exact Or.inl h
    · by_cases hf : r ∈ fseen
      · exact Or.inl hf
      · refine Or.inr ⟨w, ⟨hw, ?_⟩, hr⟩
        subst hr
        simp [hf]

/-- C8: `getAvailableWorkspaces` merges its three sources with
file-registry precedence over in-memory registration, which has
precedence over directory discovery: every file entry appears, an
in-memory workspace appears exactly when its resolved path collides with
no file entry, and a discovered workspace exactly when its resolved path
collides with neither a file entry nor an in-memory registration. -/
theorem workspace_merge_precedence (resolve : String → String)
    (entries : List FileRegistryEntry) (in_memory discovered : List WsDescriptor) :
    getAvailableWorkspaces resolve entries in_memory discovered =
      entries.map fileDescriptor ++
      in_memory.filter (fun w =>
        !(decide (resolve w.path ∈
          (entries.map fileDescriptor).map (fun v => resolve v.path)))) ++
      discovered.filter (fun w =>
        !(decide (resolve w.path ∈
          (entries.map fileDescriptor).map (fun v => resolve v.path))) &&
        !(decide (resolve w.path ∈ in_memory.map (fun v => resolve v.path)))) ∧
    ∀ e ∈ entries, fileDescriptor e ∈
      getAvailableWorkspaces resolve entries in_memory discovered := by
  have hmain : getAvailableWorkspaces resolve entries in_memory discovered =
      entries.map fileDescriptor ++
      in_memory.filter (fun w =>
        !(decide (resolve w.path ∈
          (entries.map fileDescriptor).map (fun v => resolve v.path)))) ++
      discovered.filter (fun w =>
        !(decide (resolve w.path ∈
          (entries.map fileDescriptor).map (fun v => resolve v.path))) &&
        !(decide (resolve w.path ∈ in_memory.map (fun v => resolve v.path)))) := by
    unfold getAvailableWorkspaces
    simp only [List.append_assoc]
    congr 2
    apply List.filter_congr
    intro w _
    have h := mem_seen_after_inmem resolve
      ((entries.map fileDescriptor).map (fun v => resolve v.path))
      in_memory (resolve w.path)
    by_cases h1 : resolve w.path ∈
        (entries.map fileDescriptor).map (fun v => resolve v.path) <;>
      by_cases h2 : resolve w.path ∈ in_memory.map (fun v => resolve v.path) <;>
      (simp [h1, h2] at h ⊢; try exact h)
  refine ⟨hmain, fun e he => ?_⟩
  rw [hmain]
  simp only [List.mem_append]
  exact Or.inl (Or.inl (List.mem_map_of_mem fileDescriptor he))

/-- Membership in the staged list-view filter pipeline is membership in
the cache satisfying the combined predicate. -/
theorem mem_templateFiltered (cache : List Issue) (sf : List String)
    (stext : String) (tf cf wf : List String) (it : Issue) :
    it ∈ templateFiltered cache sf stext tf cf wf ↔
      it ∈ cache ∧ templatePred sf stext tf cf wf it = true := by
  unfold templateFiltered templatePred
  by_cases h1 : (!sf.isEmpty && !(decide ("ready" ∈ sf))) = true <;>
  by_cases h2 : stext ≠ "" <;>
  by_cases h3 : (!tf.isEmpty) = true <;>
  by_cases h4 : (!cf.isEmpty || !wf.isEmpty) = true <;>
  simp [h1, h2, h3, h4, List.mem_filter] <;> tauto

/-- C7: only the status filter shapes the Issues-tab subscription spec —
`ready`/`in_progress`/`closed` select the dedicated server-side kinds
while `all` and `open` both map to `all-issues`; two filter states with
the same status always produce the same spec; and the purely local
filters (search text, type, client/work label sets) act client-side, as a
pure predicate over the full mirrored membership of `tab:issues`. -/
theorem status_filter_drives_spec :
    (∀ f : Filters, f.status = "ready" →
      computeIssuesSpec f = SubSpec.plain "ready-issues") ∧
    (∀ f : Filters, f.status = "in_progress" →
      computeIssuesSpec f = SubSpec.plain "in-progress-issues") ∧
    (∀ f : Filters, f.status = "closed" →
      computeIssuesSpec f = SubSpec.plain "closed-issues") ∧
    (∀ f : Filters, f.status = "all" ∨ f.status = "open" →
      computeIssuesSpec f = SubSpec.plain "all-issues") ∧
    (∀ f g : Filters, f.status = g.status →
      computeIssuesSpec f = computeIssuesSpec g) ∧
    (∀ (reg : Registry) (sf : List String) (stext : String)
      (tf cf wf : List String) (it : Issue),
      it ∈ templateFiltered (selectIssuesFor reg "tab:issues") sf stext tf cf wf ↔
        it ∈ selectIssuesFor reg "tab:issues" ∧
          templatePred sf stext tf cf wf it = true) := by
  refine ⟨?_, ?_, ?_, ?_, ?_, ?_⟩
  · intro f h
    simp [computeIssuesSpec, h]
  · intro f h
    simp [computeIssuesSpec, h]
  · intro f h
    simp [computeIssuesSpec, h]
  · intro f h
    rcases h with h | h <;> simp [computeIssuesSpec, h]
  · intro f g h
    unfold computeIssuesSpec
    rw [h]
  · intro reg sf stext tf cf wf it
    exact mem_templateFiltered _ sf stext tf cf wf it

/-- Build a filter state positionally (witness convenience). -/
def mkFilters (status search ftype : String) (client work : List String) : Filters :=
  { status := status, search := search, ftype := ftype,
    client := client, work := work }

/-- Witness for C7: the four concrete status mappings and one concrete
spec-equality of status-equal filter states. -/
theorem status_filter_drives_spec_witness :
    computeIssuesSpec (mkFilters "ready" "" "" [] []) =
      SubSpec.plain "ready-issues" ∧
    computeIssuesSpec (mkFilters "in_progress" "" "" [] []) =
      SubSpec.plain "in-progress-issues" ∧
    computeIssuesSpec (mkFilters "closed" "" "" [] []) =
      SubSpec.plain "closed-issues" ∧
    computeIssuesSpec (mkFilters "open" "x" "bug" ["acme"] []) =
      SubSpec.plain "all-issues" ∧
    computeIssuesSpec (mkFilters "open" "x" "bug" ["acme"] []) =
      computeIssuesSpec (mkFilters "open" "" "" [] []) :=
  ⟨status_filter_drives_spec.1 _ rfl,
   status_filter_drives_spec.2.1 _ rfl,
   status_filter_drives_spec.2.2.1 _ rfl,
   status_filter_drives_spec.2.2.2.1 _ (Or.inr rfl),
   status_filter_drives_spec.2.2.2.2.1 _ _ rfl⟩

/-- The boolean no-change test inside `setState` decides `noChangeGuard`. -/
theorem setState_guard_iff (s n : AppState) :
    (decide (n.selected_id = s.selected_id) &&
      decide (n.view = s.view) &&
      decide (n.filters.status = s.filters.status) &&
      decide (n.filters.search = s.filters.search) &&
      decide (n.filters.ftype = s.filters.ftype) &&
      !(decide (n.filters.client ≠ s.filters.client)) &&
      !(decide (n.filters.work ≠ s.filters.work)) &&
      decide (n.board.closed_filter = s.board.closed_filter) &&
      !(decide (n.workspace.current.map WorkspaceInfo.path ≠
          s.workspace.current.map WorkspaceInfo.path) ||
        decide (n.workspace.available.length ≠ s.workspace.available.length))) =
      true ↔ noChangeGuard s n := by
  unfold noChangeGuard
  simp only [Bool.and_eq_true, Bool.not_eq_true', Bool.or_eq_false_iff,
    decide_eq_true_iff, decide_eq_false_iff_not, not_not]
  tauto

/-- C9: `setState` is a silent no-op — the stored state object is kept and
no subscriber runs — exactly when the merged patch leaves unchanged every
field the guard inspects (selected id, view, the status/search/type
filters, the client and work label lists, the board closed filter, the
current workspace path and the number of available workspaces); otherwise
the merged state is installed and every subscriber is invoked exactly once
with it, in order, an exception from one subscriber (an `Except.error`
result) never preventing the others from running. -/
theorem setState_noop_or_emit (s : AppState)
    (subs : List (AppState → Except String Unit)) (p : StatePatch) :
    (noChangeGuard s (mergeState s p) → setState s subs p = (s, [])) ∧
    (¬ noChangeGuard s (mergeState s p) →
      setState s subs p =
        (mergeState s p, subs.map (fun f => f (mergeState s p)))) := by
  constructor <;> intro h
  · unfold setState
    rw [if_pos ((setState_guard_iff s (mergeState s p)).mpr h)]
  · unfold setState
    rw [if_neg (fun hc => h ((setState_guard_iff s (mergeState s p)).mp hc))]

/-- A concrete base state for the C9 witness. -/
def appS0 : AppState :=
  { selected_id := none, view := ViewName.issues,
    filters := mkFilters "all" "" "" [] [],
    board := { closed_filter := "today" },
    workspace := { current := none, available := [] } }

/-- The all-absent patch (`setState({})`). -/
def emptyPatch : StatePatch :=
  { selected_id := none, view := none, filters := none, board := none,
    workspace := none }

/-- A patch that selects an issue. -/
def selectPatch : StatePatch :=
  { selected_id := some (some "I-1"), view := none, filters := none,
    board := none, workspace := none }

/-- Concrete subscribers for the C9 witness; the middle one throws. -/
def witnessSubs : List (AppState → Except String Unit) :=
  [fun _ => Except.ok (), fun _ => Except.error "boom", fun _ => Except.ok ()]

/-- Witness for C9: the empty patch is a silent no-op, and a selecting
patch installs the merged state and runs all three subscribers — the
throwing middle subscriber does not stop the third. -/
theorem setState_noop_or_emit_witness :
    setState appS0 witnessSubs emptyPatch = (appS0, []) ∧
    setState appS0 witnessSubs selectPatch =
      (mergeState appS0 selectPatch,
       [Except.ok (), Except.error "boom", Except.ok ()]) :=
  ⟨(setState_noop_or_emit appS0 witnessSubs emptyPatch).1 (by decide),
   ((setState_noop_or_emit appS0 witnessSubs selectPatch).2 (by decide)).trans
     (by rfl)⟩

/-- The cutoff timestamp named by the claim for each closed-filter mode:
start of the current local day for `today`, now minus three or seven whole
days (in milliseconds) otherwise. -/
def closedCutoff (mode : String) (now_ts day_start_ts : Int) : Int :=
  if mode = "today" then day_start_ts
  else if mode = "3" then now_ts - 3 * 24 * 60 * 60 * 1000
  else now_ts - 7 * 24 * 60 * 60 * 1000

/-- For the three legal modes the `since_ts` computed by
`applyClosedFilter` equals the claim's cutoff. -/
theorem since_eq_cutoff (mode : String) (now_ts day_start_ts : Int)
    (hm : mode = "today" ∨ mode = "3" ∨ mode = "7") :
    (if mode = "today" then day_start_ts
     else if mode = "3" then now_ts - 3 * 24 * 60 * 60 * 1000
     else if mode = "7" then now_ts - 7 * 24 * 60 * 60 * 1000
     else 0) = closedCutoff mode now_ts day_start_ts := by
  rcases hm with h | h | h <;> subst h <;> simp [closedCutoff]

/-- The closed-descending comparison is transitive. -/
theorem cmpClosedDescLe_trans (a b c : Issue)
    (hab : cmpClosedDescLe a b = true) (hbc : cmpClosedDescLe b c = true) :
    cmpClosedDescLe a c = true := by
  simp only [cmpClosedDescLe, decide_eq_true_iff] at *
  exact le_trans hbc hab

/-- The closed-descending comparison is total. -/
theorem cmpClosedDescLe_total (a b : Issue) :
    (cmpClosedDescLe a b || cmpClosedDescLe b a) = true := by
  simp only [cmpClosedDescLe, Bool.or_eq_true, decide_eq_true_iff]
  exact le_total _ _

/-- C10: for each closed-filter mode, `applyClosedFilter` returns a
permutation of exactly those raw items whose `closed_at` is a finite
number at or after the mode's cutoff, sorted by `closed_at` descending;
items without a finite `closed_at` are always excluded. -/
theorem applyClosedFilter_exact (raw : List Issue) (mode : String)
    (now_ts day_start_ts : Int)
    (hm : mode = "today" ∨ mode = "3" ∨ mode = "7") :
    ((applyClosedFilter raw mode now_ts day_start_ts).Perm
      (raw.filter (fun it =>
        match it.closed_at with
        | some s => decide (closedCutoff mode now_ts day_start_ts ≤ s)
        | none => false))) ∧
    (applyClosedFilter raw mode now_ts day_start_ts).Pairwise
      (fun a b => b.closed_at.getD 0 ≤ a.closed_at.getD 0) ∧
    ∀ it, it ∈ applyClosedFilter raw mode now_ts day_start_ts ↔
      it ∈ raw ∧ ∃ s, it.closed_at = some s ∧
        closedCutoff mode now_ts day_start_ts ≤ s := by
  have hsince := since_eq_cutoff mode now_ts day_start_ts hm
  unfold applyClosedFilter
  rw [hsince]
  refine ⟨List.mergeSort_perm _ _, ?_, ?_⟩
  · exact (List.sorted_mergeSort cmpClosedDescLe_trans cmpClosedDescLe_total
      _).imp (fun h => of_decide_eq_true h)
  · intro it
    rw [(List.mergeSort_perm _ cmpClosedDescLe).mem_iff, List.mem_filter]
    constructor
    · rintro ⟨hmem, hp⟩
      refine ⟨hmem, ?_⟩
      cases hca : it.closed_at with
      | none => rw [hca] at hp; simp at hp
      | some s =>
          rw [hca] at hp
          exact ⟨s, rfl, of_decide_eq_true hp⟩
    · rintro ⟨hmem, s, hs, hle⟩
      refine ⟨hmem, ?_⟩
      rw [hs]
      exact decide_eq_true hle

/-- Witness for C10 at a concrete list and the `"3"` mode. -/
theorem applyClosedFilter_exact_witness :
    ((applyClosedFilter
        [mkIssue "a" "closed" (some 10), mkIssue "b" "closed" none,
         mkIssue "c" "closed" (some 50)] "3" 259200020 0).Perm
      ([mkIssue "a" "closed" (some 10), mkIssue "b" "closed" none,
        mkIssue "c" "closed" (some 50)].filter (fun it =>
        match it.closed_at with
        | some s => decide (closedCutoff "3" 259200020 0 ≤ s)
        | none => false))) ∧
    (applyClosedFilter
        [mkIssue "a" "closed" (some 10), mkIssue "b" "closed" none,
         mkIssue "c" "closed" (some 50)] "3" 259200020 0).Pairwise
      (fun a b => b.closed_at.getD 0 ≤ a.closed_at.getD 0) ∧
    ∀ it, it ∈ applyClosedFilter
        [mkIssue "a" "closed" (some 10), mkIssue "b" "closed" none,
         mkIssue "c" "closed" (some 50)] "3" 259200020 0 ↔
      it ∈ [mkIssue "a" "closed" (some 10), mkIssue "b" "closed" none,
         mkIssue "c" "closed" (some 50)] ∧
        ∃ s, it.closed_at = some s ∧ closedCutoff "3" 259200020 0 ≤ s :=
  applyClosedFilter_exact _ "3" 259200020 0 (Or.inr (Or.inl rfl))

/- # C1/C2 lemma suite for the subscription call sites -/

/-- The composite in-flight key used for the Issues tab. -/
def issuesPendingKey (filters : Filters) : String :=
  "tab:issues:" ++ fingerprintOf (computeIssuesSpec filters)

/-- A subscribe emitted by the Issues segment names `tab:issues` with the
computed spec; its composite key was not in flight. -/
theorem ensureIssuesTab_subscribe_mem (st : TabSubState) (v : ViewName)
    (f : Filters) (k : String) (spec : SubSpec)
    (h : SubAction.subscribe k spec ∈ (ensureIssuesTab st v f).1) :
    k = "tab:issues" ∧ spec = computeIssuesSpec f ∧
      issuesPendingKey f ∉ st.pending_subscriptions := by
  simp only [ensureIssuesTab] at h
  split at h
  · split at h
    next hc =>
      simp only [Bool.and_eq_true, Bool.not_eq_true',
        decide_eq_false_iff_not] at hc
      simp only [List.cons_append, List.nil_append, List.mem_cons,
        List.not_mem_nil, or_false] at h
      rcases h with h | h
      · exact absurd h (by simp)
      · obtain ⟨hk, hs⟩ := SubAction.subscribe.inj h
        exact ⟨hk, hs, hc.2⟩
    next => simp at h
  · split at h
    · simp at h
    · simp at h

/-- The Issues segment never removes an in-flight key. -/
theorem ensureIssuesTab_pending_mono (st : TabSubState) (v : ViewName)
    (f : Filters) (x : String) (h : x ∈ st.pending_subscriptions) :
    x ∈ (ensureIssuesTab st v f).2.pending_subscriptions := by
  simp only [ensureIssuesTab]
  split
  · split <;> simp [h]
  · split <;> simp [h]

/-- A subscribe emitted by the Issues segment leaves its composite key in
flight in the resulting state. -/
theorem ensureIssuesTab_subscribe_pending (st : TabSubState) (v : ViewName)
    (f : Filters) (k : String) (spec : SubSpec)
    (h : SubAction.subscribe k spec ∈ (ensureIssuesTab st v f).1) :
    issuesPendingKey f ∈ (ensureIssuesTab st v f).2.pending_subscriptions := by
  simp only [ensureIssuesTab] at h ⊢
  split at h
  next hv =>
    rw [if_pos hv]
    split at h
    next hc => rw [if_pos hc]; simp [issuesPendingKey]
    next hc => simp at h
  next hv =>
    rw [if_neg hv]
    split at h <;> simp at h

/-- A subscribe emitted by the Epics segment names `tab:epics`; the key
was not in flight. -/
theorem ensureEpicsTab_subscribe_mem (st : TabSubState) (v : ViewName)
    (k : String) (spec : SubSpec)
    (h : SubAction.subscribe k spec ∈ (ensureEpicsTab st v).1) :
    k = "tab:epics" ∧ spec = SubSpec.plain "epics" ∧
      "tab:epics" ∉ st.pending_subscriptions := by
  simp only [ensureEpicsTab] at h
  split at h
  · split at h
    next hc =>
      simp only [Bool.and_eq_true, Bool.not_eq_true',
        decide_eq_false_iff_not] at hc
      simp only [List.cons_append, List.nil_append, List.mem_cons,
        List.not_mem_nil, or_false] at h
      rcases h with h | h
      · exact absurd h (by simp)
      · obtain ⟨hk, hs⟩ := SubAction.subscribe.inj h
        exact ⟨hk, hs, hc.2⟩
    next => simp at h
  · split at h
    · simp at h
    · simp at h

/-- The Epics segment never removes an in-flight key. -/
theorem ensureEpicsTab_pending_mono (st : TabSubState) (v : ViewName)
    (x : String) (h : x ∈ st.pending_subscriptions) :
    x ∈ (ensureEpicsTab st v).2.pending_subscriptions := by
  simp only [ensureEpicsTab]
  split
  · split <;> simp [h]
  · split <;> simp [h]

/-- A subscribe emitted by the Epics segment leaves `tab:epics` in flight. -/
theorem ensureEpicsTab_subscribe_pending (st : TabSubState) (v : ViewName)
    (k : String) (spec : SubSpec)
    (h : SubAction.subscribe k spec ∈ (ensureEpicsTab st v).1) :
    "tab:epics" ∈ (ensureEpicsTab st v).2.pending_subscriptions := by
  simp only [ensureEpicsTab] at h ⊢
  split at h
  next hv =>
    rw [if_pos hv]
    split at h
    next hc => rw [if_pos hc]; simp
    next hc => simp at h
  next hv =>
    rw [if_neg hv]
    split at h <;> simp at h

/-- A subscribe emitted by one board-column block names that column's key
and spec; the key was not in flight. -/
theorem ensureBoardColumn_subscribe_mem (st : TabSubState) (hu : Bool)
    (key : String) (cspec : SubSpec) (k : String) (spec : SubSpec)
    (h : SubAction.subscribe k spec ∈ (ensureBoardColumn st hu key cspec).1) :
    k = key ∧ spec = cspec ∧ key ∉ st.pending_subscriptions := by
  simp only [ensureBoardColumn] at h
  split at h
  next hc =>
    simp only [Bool.and_eq_true, Bool.not_eq_true',
      decide_eq_false_iff_not] at hc
    simp only [List.mem_cons, List.not_mem_nil, or_false] at h
    rcases h with h | h
    · exact absurd h (by simp)
    · obtain ⟨hk, hs⟩ := SubAction.subscribe.inj h
      exact ⟨hk, hs, hc.2⟩
  next => simp at h

/-- A board-column block never removes an in-flight key. -/
theorem ensureBoardColumn_pending_mono (st : TabSubState) (hu : Bool)
    (key : String) (cspec : SubSpec) (x : String)
    (h : x ∈ st.pending_subscriptions) :
    x ∈ (ensureBoardColumn st hu key cspec).2.pending_subscriptions := by
  simp only [ensureBoardColumn]
  split
  · simp [h]
  · exact h

/-- A subscribe emitted by a board-column block leaves its key in flight. -/
theorem ensureBoardColumn_subscribe_pending (st : TabSubState) (hu : Bool)
    (key : String) (cspec : SubSpec) (k : String) (spec : SubSpec)
    (h : SubAction.subscribe k spec ∈ (ensureBoardColumn st hu key cspec).1) :
    key ∈ (ensureBoardColumn st hu key cspec).2.pending_subscriptions := by
  simp only [ensureBoardColumn] at h ⊢
  split at h
  next hc => rw [if_pos hc]; simp
  next hc => simp at h

/-- Teardown of a board column issues no subscribe. -/
theorem teardownBoardColumn_no_subscribe (hu : Bool) (key : String)
    (k : String) (spec : SubSpec) :
    SubAction.subscribe k spec ∉ teardownBoardColumn hu key := by
  unfold teardownBoardColumn
  split <;> simp

/-- A subscribe emitted by the Board segment names one of the four column
keys with its spec, and that key was not in flight on entry. -/
theorem ensureBoardTab_subscribe_mem (st : TabSubState) (v : ViewName)
    (k : String) (spec : SubSpec)
    (h : SubAction.subscribe k spec ∈ (ensureBoardTab st v).1) :
    ((k = "tab:board:ready" ∧ spec = SubSpec.plain "ready-issues") ∨
     (k = "tab:board:in-progress" ∧ spec = SubSpec.plain "in-progress-issues") ∨
     (k = "tab:board:closed" ∧ spec = SubSpec.plain "closed-issues") ∨
     (k = "tab:board:blocked" ∧ spec = SubSpec.plain "blocked-issues")) ∧
      k ∉ st.pending_subscriptions := by
  simp only [ensureBoardTab] at h
  split at h
  · simp only [List.mem_append] at h
    rcases h with ((h | h) | h) | h
    · obtain ⟨hk, hs, hp⟩ := ensureBoardColumn_subscribe_mem _ _ _ _ _ _ h
      subst hk
      exact ⟨Or.inl ⟨rfl, hs⟩, hp⟩
    · obtain ⟨hk, hs, hp⟩ := ensureBoardColumn_subscribe_mem _ _ _ _ _ _ h
      subst hk
      refine ⟨Or.inr (Or.inl ⟨rfl, hs⟩), fun hmem => hp ?_⟩
      exact ensureBoardColumn_pending_mono _ _ _ _ _ hmem
    · obtain ⟨hk, hs, hp⟩ := ensureBoardColumn_subscribe_mem _ _ _ _ _ _ h
      subst hk
      refine ⟨Or.inr (Or.inr (Or.inl ⟨rfl, hs⟩)), fun hmem => hp ?_⟩
      exact ensureBoardColumn_pending_mono _ _ _ _ _
        (ensureBoardColumn_pending_mono _ _ _ _ _ hmem)
    · obtain ⟨hk, hs, hp⟩ := ensureBoardColumn_subscribe_mem _ _ _ _ _ _ h
      subst hk
      refine ⟨Or.inr (Or.inr (Or.inr ⟨rfl, hs⟩)), fun hmem => hp ?_⟩
      exact ensureBoardColumn_pending_mono _ _ _ _ _
        (ensureBoardColumn_pending_mono _ _ _ _ _
          (ensureBoardColumn_pending_mono _ _ _ _ _ hmem))
  · simp only [List.mem_append] at h
    rcases h with ((h | h) | h) | h <;>
      exact absurd h (teardownBoardColumn_no_subscribe _ _ _ _)

/-- The Board segment never removes an in-flight key. -/
theorem ensureBoardTab_pending_mono (st : TabSubState) (v : ViewName)
    (x : String) (h : x ∈ st.pending_subscriptions) :
    x ∈ (ensureBoardTab st v).2.pending_subscriptions := by
  simp only [ensureBoardTab]
  split
  · exact ensureBoardColumn_pending_mono _ _ _ _ _
      (ensureBoardColumn_pending_mono _ _ _ _ _
        (ensureBoardColumn_pending_mono _ _ _ _ _
          (ensureBoardColumn_pending_mono _ _ _ _ _ h)))
  · exact h

/-- A subscribe emitted by the Board segment leaves its key in flight. -/
theorem ensureBoardTab_subscribe_pending (st : TabSubState) (v : ViewName)
    (k : String) (spec : SubSpec)
    (h : SubAction.subscribe k spec ∈ (ensureBoardTab st v).1) :
    k ∈ (ensureBoardTab st v).2.pending_subscriptions := by
  simp only [ensureBoardTab] at h ⊢
  split at h
  next hv =>
    rw [if_pos hv]
    simp only [List.mem_append] at h
    rcases h with ((h | h) | h) | h
    · obtain ⟨hk, _, _⟩ := ensureBoardColumn_subscribe_mem _ _ _ _ _ _ h
      subst hk
      exact ensureBoardColumn_pending_mono _ _ _ _ _
        (ensureBoardColumn_pending_mono _ _ _ _ _
          (ensureBoardColumn_pending_mono _ _ _ _ _
            (ensureBoardColumn_subscribe_pending _ _ _ _ _ _ h)))
    · obtain ⟨hk, _, _⟩ := ensureBoardColumn_subscribe_mem _ _ _ _ _ _ h
      subst hk
      exact ensureBoardColumn_pending_mono _ _ _ _ _
        (ensureBoardColumn_pending_mono _ _ _ _ _
          (ensureBoardColumn_subscribe_pending _ _ _ _ _ _ h))
    · obtain ⟨hk, _, _⟩ := ensureBoardColumn_subscribe_mem _ _ _ _ _ _ h
      subst hk
      exact ensureBoardColumn_pending_mono _ _ _ _ _
        (ensureBoardColumn_subscribe_pending _ _ _ _ _ _ h)
    · obtain ⟨hk, _, _⟩ := ensureBoardColumn_subscribe_mem _ _ _ _ _ _ h
      subst hk
      exact ensureBoardColumn_subscribe_pending _ _ _ _ _ _ h
  next hv =>
    rw [if_neg hv]
    simp only [List.mem_append] at h
    rcases h with ((h | h) | h) | h <;>
      exact absurd h (teardownBoardColumn_no_subscribe _ _ _ _)

/-- One `ensureTabSubscriptions` call never removes an in-flight key. -/
theorem ensureTabSubscriptions_pending_mono (st : TabSubState) (v : ViewName)
    (f : Filters) (x : String) (h : x ∈ st.pending_subscriptions) :
    x ∈ (ensureTabSubscriptions st v f).2.pending_subscriptions := by
  simp only [ensureTabSubscriptions]
  exact ensureBoardTab_pending_mono _ _ _
    (ensureEpicsTab_pending_mono _ _ _
      (ensureIssuesTab_pending_mono _ _ _ _ h))

/-- Any subscribe emitted by one `ensureTabSubscriptions` call names one
of the seven tab keys, carries that key's spec, and its in-flight key was
absent from the entry state's in-flight set. -/
theorem ensureTabSubscriptions_subscribe_mem (st : TabSubState)
    (v : ViewName) (f : Filters) (k : String) (spec : SubSpec)
    (h : SubAction.subscribe k spec ∈ (ensureTabSubscriptions st v f).1) :
    (k = "tab:issues" ∧ spec = computeIssuesSpec f ∧
      issuesPendingKey f ∉ st.pending_subscriptions) ∨
    (k = "tab:epics" ∧ spec = SubSpec.plain "epics" ∧
      "tab:epics" ∉ st.pending_subscriptions) ∨
    (((k = "tab:board:ready" ∧ spec = SubSpec.plain "ready-issues") ∨
      (k = "tab:board:in-progress" ∧ spec = SubSpec.plain "in-progress-issues") ∨
      (k = "tab:board:closed" ∧ spec = SubSpec.plain "closed-issues") ∨
      (k = "tab:board:blocked" ∧ spec = SubSpec.plain "blocked-issues")) ∧
      k ∉ st.pending_subscriptions) := by
  simp only [ensureTabSubscriptions, List.mem_append] at h
  rcases h with (h | h) | h
  · exact Or.inl (ensureIssuesTab_subscribe_mem _ _ _ _ _ h)
  · obtain ⟨hk, hs, hp⟩ := ensureEpicsTab_subscribe_mem _ _ _ _ h
    exact Or.inr (Or.inl ⟨hk, hs, fun hmem =>
      hp (ensureIssuesTab_pending_mono _ _ _ _ hmem)⟩)
  · obtain ⟨hd, hp⟩ := ensureBoardTab_subscribe_mem _ _ _ _ h
    exact Or.inr (Or.inr ⟨hd, fun hmem =>
      hp (ensureEpicsTab_pending_mono _ _ _
        (ensureIssuesTab_pending_mono _ _ _ _ hmem))⟩)

/-- Any subscribe emitted by one `ensureTabSubscriptions` call leaves its
in-flight key in the resulting state's in-flight set. -/
theorem ensureTabSubscriptions_subscribe_pending (st : TabSubState)
    (v : ViewName) (f : Filters) (k : String) (spec : SubSpec)
    (h : SubAction.subscribe k spec ∈ (ensureTabSubscriptions st v f).1) :
    (k = "tab:issues" →
      ("tab:issues:" ++ fingerprintOf spec) ∈
        (ensureTabSubscriptions st v f).2.pending_subscriptions) ∧
    (k ≠ "tab:issues" →
      k ∈ (ensureTabSubscriptions st v f).2.pending_subscriptions) := by
  simp only [ensureTabSubscriptions, List.mem_append] at h ⊢
  rcases h with (h | h) | h
  · obtain ⟨hk, hs, _⟩ := ensureIssuesTab_subscribe_mem _ _ _ _ _ h
    constructor
    · intro _
      rw [hs]
      exact ensureBoardTab_pending_mono _ _ _
        (ensureEpicsTab_pending_mono _ _ _
          (ensureIssuesTab_subscribe_pending _ _ _ _ _ h))
    · intro hne
      exact absurd hk hne
  · obtain ⟨hk, _, _⟩ := ensureEpicsTab_subscribe_mem _ _ _ _ h
    subst hk
    constructor
    · intro hk2
      exact absurd hk2 (by simp)
    · intro _
      exact ensureBoardTab_pending_mono _ _ _
        (ensureEpicsTab_subscribe_pending _ _ _ _ h)
  · obtain ⟨hd, _⟩ := ensureBoardTab_subscribe_mem _ _ _ _ h
    have hkfinal := ensureBoardTab_subscribe_pending _ _ _ _ h
    constructor
    · intro hk2
      rcases hd with ⟨hk, _⟩ | ⟨hk, _⟩ | ⟨hk, _⟩ | ⟨hk, _⟩ <;>
        (rw [hk2] at hk; exact absurd hk (by simp))
    · intro _
      exact hkfinal

/-- Settlement removes exactly the settled composite key from the
in-flight set, whether the subscribe resolved or rejected. -/
theorem settleTab_pending (st : TabSubState) (tk : TabKey) (success : Bool) :
    (settleTab st tk success).pending_subscriptions =
      st.pending_subscriptions.filter (fun x => x ≠ tk.pendingKey) := by
  unfold settleTab
  cases success <;> cases tk <;> rfl

/-- Any subscribe emitted by `ensureTabSubscriptions` proves its own
in-flight key absent from the entry state. -/
theorem ensureTabSubscriptions_subscribe_not_pending (st : TabSubState)
    (v : ViewName) (f : Filters) (k : String) (spec : SubSpec)
    (h : SubAction.subscribe k spec ∈ (ensureTabSubscriptions st v f).1) :
    (k = "tab:issues" ∧ issuesPendingKey f ∉ st.pending_subscriptions) ∨
    (k ≠ "tab:issues" ∧ k ∉ st.pending_subscriptions) := by
  rcases ensureTabSubscriptions_subscribe_mem st v f k spec h with
    ⟨hk, _, hp⟩ | ⟨hk, _, hp⟩ | ⟨hd, hp⟩
  · exact Or.inl ⟨hk, hp⟩
  · subst hk
    exact Or.inr ⟨by decide, hp⟩
  · rcases hd with ⟨hk, _⟩ | ⟨hk, _⟩ | ⟨hk, _⟩ | ⟨hk, _⟩ <;>
      (subst hk; exact Or.inr ⟨by decide, hp⟩)

/-- C2: while a subscribe for a tab key with a given spec fingerprint is
in flight (its composite key is in `pending_subscriptions`), a further
`ensureTabSubscriptions` call emits no subscribe for that key with that
fingerprint — the request never reaches the transport; any subscribe that
is emitted puts its composite key into the in-flight set of the resulting
state; the synchronous call never removes in-flight keys; and settlement
(the `.finally` handler) removes exactly the settled key, on success and
failure alike. -/
theorem inflight_subscribe_dedup (st : TabSubState) (view : ViewName)
    (filters : Filters) :
    ((issuesPendingKey filters ∈ st.pending_subscriptions →
       ∀ spec, SubAction.subscribe "tab:issues" spec ∉
         (ensureTabSubscriptions st view filters).1) ∧
     (∀ k, k ∈ (["tab:epics", "tab:board:ready", "tab:board:in-progress",
         "tab:board:closed", "tab:board:blocked"] : List String) →
       k ∈ st.pending_subscriptions →
       ∀ spec, SubAction.subscribe k spec ∉
         (ensureTabSubscriptions st view filters).1)) ∧
    (∀ k spec,
      SubAction.subscribe k spec ∈ (ensureTabSubscriptions st view filters).1 →
      (k = "tab:issues" →
        ("tab:issues:" ++ fingerprintOf spec) ∈
          (ensureTabSubscriptions st view filters).2.pending_subscriptions) ∧
      (k ≠ "tab:issues" →
        k ∈ (ensureTabSubscriptions st view filters).2.pending_subscriptions)) ∧
    (∀ x ∈ st.pending_subscriptions,
      x ∈ (ensureTabSubscriptions st view filters).2.pending_subscriptions) ∧
    (∀ (st2 : TabSubState) (tk : TabKey) (success : Bool),
      (settleTab st2 tk success).pending_subscriptions =
        st2.pending_subscriptions.filter (fun x => x ≠ tk.pendingKey)) := by
  refine ⟨⟨?_, ?_⟩, ?_, ?_, ?_⟩
  · intro hpend spec hmem
    rcases ensureTabSubscriptions_subscribe_not_pending st view filters
      _ _ hmem with ⟨_, hp⟩ | ⟨hne, _⟩
    · exact hp hpend
    · exact hne rfl
  · intro k hklist hpend spec hmem
    rcases ensureTabSubscriptions_subscribe_not_pending st view filters
      _ _ hmem with ⟨hk, _⟩ | ⟨_, hp⟩
    · subst hk
      simp at hklist
    · exact hp hpend
  · intro k spec hmem
    exact ensureTabSubscriptions_subscribe_pending st view filters k spec hmem
  · intro x hx
    exact ensureTabSubscriptions_pending_mono st view filters x hx
  · intro st2 tk success
    exact settleTab_pending st2 tk success

/-- A concrete call-site state with two in-flight keys for the C2 witness. -/
def stPend : TabSubState :=
  { unsub_issues_tab := false, unsub_epics_tab := false,
    unsub_board_ready := false, unsub_board_in_progress := false,
    unsub_board_closed := false, unsub_board_blocked := false,
    last_issues_spec_key := none,
    pending_subscriptions :=
      [issuesPendingKey (mkFilters "all" "" "" [] []), "tab:epics"] }

/-- Witness for C2: with the Issues fingerprint and `tab:epics` in
flight, the respective subscribes are suppressed, and a failed settlement
still clears the epics key. -/
theorem inflight_subscribe_dedup_witness :
    SubAction.subscribe "tab:issues" (SubSpec.plain "all-issues") ∉
      (ensureTabSubscriptions stPend ViewName.issues
        (mkFilters "all" "" "" [] [])).1 ∧
    SubAction.subscribe "tab:epics" (SubSpec.plain "epics") ∉
      (ensureTabSubscriptions stPend ViewName.epics
        (mkFilters "all" "" "" [] [])).1 ∧
    (settleTab stPend TabKey.epics false).pending_subscriptions =
      stPend.pending_subscriptions.filter
        (fun x => x ≠ TabKey.pendingKey TabKey.epics) :=
  ⟨(inflight_subscribe_dedup stPend ViewName.issues
      (mkFilters "all" "" "" [] [])).1.1 (by decide) _,
   (inflight_subscribe_dedup stPend ViewName.epics
      (mkFilters "all" "" "" [] [])).1.2 "tab:epics" (by decide) (by decide) _,
   (inflight_subscribe_dedup stPend ViewName.issues
      (mkFilters "all" "" "" [] [])).2.2.2 stPend TabKey.epics false⟩

/-- The registered-key set after walking an action trace. -/
def regUpdate : List SubAction → List String → List String
  | [], regd => regd
  | SubAction.register k _ :: rest, regd => regUpdate rest (k :: regd)
  | SubAction.subscribe _ _ :: rest, regd => regUpdate rest regd
  | SubAction.unsubscribe _ :: rest, regd => regUpdate rest regd
  | SubAction.unregister k :: rest, regd =>
      regUpdate rest (regd.filter (fun x => x ≠ k))

/-- The checker splits over concatenation, threading the registered set. -/
theorem regBeforeSubOk_append (a b : List SubAction) (regd : List String) :
    regBeforeSubOk (a ++ b) regd =
      (regBeforeSubOk a regd && regBeforeSubOk b (regUpdate a regd)) := by
  induction a generalizing regd with
  | nil => simp [regBeforeSubOk, regUpdate]
  | cons hd tl ih =>
      cases hd <;> simp [regBeforeSubOk, regUpdate, ih, Bool.and_assoc]

/-- The Issues segment always registers before it subscribes. -/
theorem ensureIssuesTab_regOk (st : TabSubState) (v : ViewName) (f : Filters)
    (regd : List String) :
    regBeforeSubOk (ensureIssuesTab st v f).1 regd = true := by
  simp only [ensureIssuesTab]
  split
  · split <;> simp [regBeforeSubOk]
  · split <;> simp [regBeforeSubOk]

/-- The Epics segment always registers before it subscribes. -/
theorem ensureEpicsTab_regOk (st : TabSubState) (v : ViewName)
    (regd : List String) :
    regBeforeSubOk (ensureEpicsTab st v).1 regd = true := by
  simp only [ensureEpicsTab]
  split
  · split <;> simp [regBeforeSubOk]
  · split <;> simp [regBeforeSubOk]

/-- A board-column block always registers before it subscribes. -/
theorem ensureBoardColumn_regOk (st : TabSubState) (hu : Bool)
    (key : String) (cspec : SubSpec) (regd : List String) :
    regBeforeSubOk (ensureBoardColumn st hu key cspec).1 regd = true := by
  simp only [ensureBoardColumn]
  split <;> simp [regBeforeSubOk]

/-- Board-column teardown trivially passes the checker. -/
theorem teardownBoardColumn_regOk (hu : Bool) (key : String)
    (regd : List String) :
    regBeforeSubOk (teardownBoardColumn hu key) regd = true := by
  unfold teardownBoardColumn
  split <;> simp [regBeforeSubOk]

/-- The Board segment always registers before it subscribes. -/
theorem ensureBoardTab_regOk (st : TabSubState) (v : ViewName)
    (regd : List String) :
    regBeforeSubOk (ensureBoardTab st v).1 regd = true := by
  simp only [ensureBoardTab]
  split
  · simp only [regBeforeSubOk_append, ensureBoardColumn_regOk, Bool.true_and]
  · simp only [regBeforeSubOk_append, teardownBoardColumn_regOk, Bool.true_and]

/-- One `ensureTabSubscriptions` call always registers a key before
subscribing it. -/
theorem ensureTabSubscriptions_regOk (st : TabSubState) (v : ViewName)
    (f : Filters) (regd : List String) :
    regBeforeSubOk (ensureTabSubscriptions st v f).1 regd = true := by
  simp only [ensureTabSubscriptions]
  simp only [regBeforeSubOk_append, ensureIssuesTab_regOk, ensureEpicsTab_regOk,
    ensureBoardTab_regOk, Bool.and_self]

/-- C1: every subscribe call site registers the per-key store first — the
action trace of any `ensureTabSubscriptions` call, of the detail-dialog
call site and of the epic-expansion call site passes the
register-before-subscribe checker — and consequently a store registered
before a subscribe resolves catches a snapshot envelope arriving right
after resolution: routing the snapshot makes its items observable via
`snapshotFor(key)`, never dropped. -/
theorem register_before_subscribe :
    (∀ (st : TabSubState) (view : ViewName) (filters : Filters),
      regBeforeSubOk (ensureTabSubscriptions st view filters).1 [] = true) ∧
    (∀ id, regBeforeSubOk (detailSubscribeActions id) [] = true) ∧
    (∀ id, regBeforeSubOk (epicToggleActions id) [] = true) ∧
    (∀ (reg : Registry) (key : String) (spec : SubSpec) (items : List Issue),
      getStore reg key = none → key ≠ "" → (items.map Issue.id).Nodup →
      snapshotFor
        (routeEvent (registerStore reg key spec) "snapshot"
          { id := some key, ptype := some "snapshot", items := items,
            ids := [] }).1 key = items) := by
  refine ⟨?_, ?_, ?_, ?_⟩
  · intro st view filters
    exact ensureTabSubscriptions_regOk st view filters []
  · intro id
    simp [detailSubscribeActions, regBeforeSubOk]
  · intro id
    simp [epicToggleActions, regBeforeSubOk]
  · intro reg key spec items hfresh hne hnodup
    have hreg := getStore_registerStore_fresh reg key spec hfresh
    have hroute : routeEvent (registerStore reg key spec) "snapshot"
        { id := some key, ptype := some "snapshot", items := items,
          ids := [] } =
        (setStore (registerStore reg key spec) key
          (applyPush { spec := spec, membership := [], entities := [] }
            { id := some key, ptype := some "snapshot", items := items,
              ids := [] }), 1) := by
      unfold routeEvent
      simp only
      rw [if_neg hne, hreg]
      rfl
    rw [hroute]
    unfold snapshotFor
    rw [getStore_setStore_self _ _ _ _ hreg]
    exact snapshotList_applySnapshot _ items hnodup

/-- Witness for C1: a fresh registration followed by a routed snapshot is
fully observable. -/
theorem register_before_subscribe_witness :
    snapshotFor
      (routeEvent (registerStore [] "tab:issues" (SubSpec.plain "all-issues"))
        "snapshot"
        { id := some "tab:issues", ptype := some "snapshot",
          items := [mkIssue "I-1" "open" none], ids := [] }).1 "tab:issues" =
      [mkIssue "I-1" "open" none] :=
  register_before_subscribe.2.2.2 [] "tab:issues" (SubSpec.plain "all-issues")
    [mkIssue "I-1" "open" none] rfl (by decide) (by decide)

/-- C3: with an active `tab:issues` subscription on record (handle held,
`last_issues_spec_key` matching the active record's fingerprint, nothing
in flight), a status-filter change whose spec serializes differently
replaces the subscription with exactly two transport round-trips — the
unsubscribe of the old spec first, then the subscribe of the new one —
while an unchanged fingerprint produces no transport call at all. -/
theorem spec_change_resubscribe (st : TabSubState) (r : SubRecord)
    (filters : Filters)
    (hunsub : st.unsub_issues_tab = true)
    (hlast : st.last_issues_spec_key = some (fingerprintOf r.spec))
    (hactive : r.status = SubStatus.active)
    (hpend : ("tab:issues:" ++ fingerprintOf (computeIssuesSpec filters)) ∉
      st.pending_subscriptions) :
    (fingerprintOf (computeIssuesSpec filters) ≠ fingerprintOf r.spec →
      ensureIssuesTransport st (some r) filters =
        [TransportCall.unsubscribe "tab:issues",
         TransportCall.subscribe "tab:issues" (computeIssuesSpec filters)]) ∧
    (fingerprintOf (computeIssuesSpec filters) = fingerprintOf r.spec →
      ensureIssuesTransport st (some r) filters = []) := by
  constructor <;> intro h
  · simp only [ensureIssuesTransport, subscribeListTransport, hunsub, hlast,
      hactive]
    simp [Option.some.injEq, Ne.symm h, hpend]
  · simp only [ensureIssuesTransport, subscribeListTransport, hunsub, hlast,
      hactive]
    simp [h, hpend]

/-- A concrete call-site state holding an active `all-issues`
subscription, for the C3 witness. -/
def stActive : TabSubState :=
  { unsub_issues_tab := true, unsub_epics_tab := false,
    unsub_board_ready := false, unsub_board_in_progress := false,
    unsub_board_closed := false, unsub_board_blocked := false,
    last_issues_spec_key := some (fingerprintOf (SubSpec.plain "all-issues")),
    pending_subscriptions := [] }

/-- The active Manager record behind `stActive`. -/
def recActive : SubRecord :=
  { spec := SubSpec.plain "all-issues", status := SubStatus.active }

/-- Witness for C3: switching the status filter to `closed` replaces the
subscription (unsubscribe then subscribe), keeping it on `all` makes no
transport call. -/
theorem spec_change_resubscribe_witness :
    ensureIssuesTransport stActive (some recActive)
      (mkFilters "closed" "" "" [] []) =
      [TransportCall.unsubscribe "tab:issues",
       TransportCall.subscribe "tab:issues"
         (computeIssuesSpec (mkFilters "closed" "" "" [] []))] ∧
    ensureIssuesTransport stActive (some recActive)
      (mkFilters "all" "" "" [] []) = [] :=
  ⟨(spec_change_resubscribe stActive recActive (mkFilters "closed" "" "" [] [])
      rfl rfl rfl (by decide)).1 (by decide),
   (spec_change_resubscribe stActive recActive (mkFilters "all" "" "" [] [])
      rfl rfl rfl (by decide)).2 (by decide)⟩

/-- A concrete file-registry entry for the C8 witness. -/
def fileEntry0 : FileRegistryEntry :=
  { workspace_path := "/p/a", database_path := "/p/a/.beads/beads.db",
    pid := 1, version := "v1" }

/-- Witness for C8: a file-registry entry appears in the merged result. -/
theorem workspace_merge_precedence_witness :
    fileDescriptor fileEntry0 ∈
      getAvailableWorkspaces id [fileEntry0] [] [] :=
  (workspace_merge_precedence id [fileEntry0] [] []).2 fileEntry0 (by decide)
